import Mathlib

/-!
Verification development for the `be_enzo_english_test` backend, centred on the
WordList aggregation model (`models/wordlist.py` and `routers/wordlists_router.py`)
together with the folder-ownership validation helpers of `routers/folders_router.py`
and `routers/words_router.py`.

Embedding conventions:
* Python strings are Lean `String` (a structure around `List Char`); Python's
  single-character `str.replace` is a character map.
* MongoDB collections are Lean `List`s of document structures; `find_one` is
  `List.find?` (first match), `update_one`/`delete_one` touch the first match.
* `datetime.utcnow()` is modelled by an explicit `now : Nat` parameter supplied
  by the caller; within one handler all timestamp reads yield this same value.
* A raised `HTTPException` is an `Except.error` carrying status code and detail.
  Handlers that write to a collection return the (possibly updated) collection
  alongside the `Except` result, so that error paths visibly leave the stores
  untouched, exactly as the source raises before any write.
* Python's `set` of strings is modelled as a duplicate-free list keeping first
  occurrences; `list(current_words)` is that list (one definite order standing
  in for CPython's unspecified set order — all properties proved below are
  order-insensitive).
* Response `message` strings that interpolate counts are modelled by returning
  the counts themselves next to the document.
-/

/-- Embeds Python single-character `str.replace(old, new)`: every occurrence of
`old` becomes `new`, all other characters are kept. -/
def replaceChar (s : String) (old new : Char) : String :=
  ⟨s.data.map fun c => if c = old then new else c⟩

/-- Embeds `generate_wordlist_id` from `models/wordlist.py` (lines 13-31):
`user_id.replace("@","_").replace(".","_")`, `folder_id.replace("-","_")`,
result `"list_" ++ clean_user_id ++ "_" ++ clean_folder_id`. -/
def generate_wordlist_id (user_id folder_id : String) : String :=
  let clean_user_id := replaceChar (replaceChar user_id ('@') ('_')) ('.') ('_')
  let clean_folder_id := replaceChar folder_id ('-') ('_')
  "list_" ++ clean_user_id ++ "_" ++ clean_folder_id

/-- HTTP error as raised via `HTTPException(status_code=..., detail=...)`. -/
structure HTTPError where
  status_code : Nat
  detail : String
deriving DecidableEq, Repr

/-- A document of the `words` collection (Reference Store). The Mongo `_id`
field is not modelled (the code strips it before returning documents); the
Python field `example` is named `ex` here because `example` is a Lean keyword. -/
structure WordDoc where
  word_id : String
  word : String
  definition : String
  ex : Option String
  image_url : Option String
  created_at : Nat
  updated_at : Nat
deriving DecidableEq, Repr

/-- A document of the `folders` collection (Container Store). `oid` is the
string rendering of the Mongo `_id`; `user_id` is the owner. -/
structure FolderDoc where
  oid : String
  user_id : String
  name : String
deriving DecidableEq, Repr

/-- A document of the `wordlists` collection (Aggregation Store). -/
structure WordListDoc where
  word_list_id : String
  user_id : String
  folder_id : String
  words : List String
  created_at : Nat
  updated_at : Nat
deriving DecidableEq, Repr

/-- A WordList whose member ids have been resolved to full word documents
(`WordListWithWordsResponse` shape). -/
structure ResolvedWordList where
  word_list_id : String
  user_id : String
  folder_id : String
  words : List WordDoc
  created_at : Nat
  updated_at : Nat
deriving DecidableEq, Repr

/-- Body of `CreateWordListRequest` (`models/wordlist.py`); the optional
`words` array defaults to `[]`, modelled as a plain list. -/
structure CreateWordListRequest where
  user_id : String
  folder_id : String
  words : List String
deriving DecidableEq, Repr

/-- Body of `UpdateWordListRequest` (`models/wordlist.py`): both fields
optional. -/
structure UpdateWordListRequest where
  user_id : Option String
  folder_id : Option String
deriving DecidableEq, Repr

/-- `update_one` with a filter: rewrites the first matching document, leaves
everything else alone (Mongo default, no `multi`). -/
def update_first {α : Type} (p : α → Bool) (g : α → α) : List α → List α
  | [] => []
  | d :: ds => if p d then g d :: ds else d :: update_first p g ds

/-- `delete_one` with a filter: removes the first matching document. -/
def delete_first {α : Type} (p : α → Bool) : List α → List α
  | [] => []
  | d :: ds => if p d then ds else d :: delete_first p ds

/-- `find_one({"word_list_id": lid})` on the wordlists collection. -/
def findWordList (s : List WordListDoc) (lid : String) : Option WordListDoc :=
  s.find? fun wl => wl.word_list_id == lid

/-- `find_one({"word_id": wid})` on the words collection. -/
def findWord (ws : List WordDoc) (wid : String) : Option WordDoc :=
  ws.find? fun w => w.word_id == wid

/-- Detail string of the 404 raised by `validate_word_exists`
(quotes of the original message omitted). -/
def wordNotFoundMsg (word_id : String) : String :=
  "Word " ++ word_id ++ " not found in global dictionary"

/-- Embeds `validate_word_exists` (`routers/wordlists_router.py` lines 40-60):
point lookup in the words collection, 404 naming the key when absent. -/
def validate_word_exists (word_id : String) (ws : List WordDoc) :
    Except HTTPError WordDoc :=
  match findWord ws word_id with
  | some w => Except.ok w
  | none => Except.error ⟨404, wordNotFoundMsg word_id⟩

/-- A hexadecimal digit, as accepted by `bson.ObjectId` parsing. -/
def isHexChar (c : Char) : Bool :=
  c.isDigit || (('a') ≤ c && c ≤ ('f')) || (('A') ≤ c && c ≤ ('F'))

/-- Embeds `bson.ObjectId(s)` validity: a 24-character hexadecimal string
(otherwise `InvalidId` is raised). -/
def isValidObjectId (s : String) : Bool :=
  s.length == 24 && s.data.all isHexChar

/-- Detail of the 400 raised by `validate_folder_exists` on a malformed id. -/
def invalidFolderMsg (folder_id : String) : String :=
  "Invalid folder ID format: " ++ folder_id

/-- Detail of the 404 raised by `validate_folder_exists`. -/
def folderNotFoundMsg (folder_id : String) : String :=
  "Folder " ++ folder_id ++ " not found"

/-- Embeds `validate_folder_exists` (`routers/wordlists_router.py` lines
63-92): 400 on malformed id, then `find_one({"_id": folder_obj_id})` — note
the query filters by `_id` only, with no owner condition. -/
def validate_folder_exists (folder_id : String) (fs : List FolderDoc) :
    Except HTTPError FolderDoc :=
  if isValidObjectId folder_id then
    match fs.find? (fun fo => fo.oid == folder_id) with
    | some fo => Except.ok fo
    | none => Except.error ⟨404, folderNotFoundMsg folder_id⟩
  else Except.error ⟨400, invalidFolderMsg folder_id⟩

/-- Detail of the 404 raised by the folders router (`FOLDER_NOT_FOUND`). -/
def folderRouterNotFoundMsg : String :=
  "Folder not found"

/-- Embeds `get_folder` (`routers/folders_router.py` lines 296 onward): parse
the id (`validate_object_id`, 400 on malformed), then
`find_one({"_id": obj_id, "user_id": user["email"]})` — existence and
ownership in one filter; absent and wrong-owner are the same 404. The caller
identity (the hardcoded user's email in the source) is the `caller`
parameter. -/
def get_folder (folder_id : String) (caller : String) (fs : List FolderDoc) :
    Except HTTPError FolderDoc :=
  if isValidObjectId folder_id then
    match fs.find? (fun fo => fo.oid == folder_id && fo.user_id == caller) with
    | some fo => Except.ok fo
    | none => Except.error ⟨404, folderRouterNotFoundMsg⟩
  else Except.error ⟨400, "Invalid folder ID format"⟩

/-- Detail of the 404 raised by `validate_folder_ownership`. -/
def folderOwnershipNotFoundMsg : String :=
  "Folder not found or does not belong to user"

/-- Embeds `validate_folder_ownership` (`routers/words_router.py` lines
103-149): `find_one({"_id": folder_id, "user_id": user_email})`; the folder id
arrives already parsed as an `ObjectId`, so no format branch here. -/
def validate_folder_ownership (folder_id : String) (user_email : String)
    (fs : List FolderDoc) : Except HTTPError FolderDoc :=
  match fs.find? (fun fo => fo.oid == folder_id && fo.user_id == user_email) with
  | some fo => Except.ok fo
  | none => Except.error ⟨404, folderOwnershipNotFoundMsg⟩

/-- The word-validation loop of `create_wordlist` / `add_words_to_wordlist`:
validate each id in order, stop at the first missing one; on success the
source has appended each validated id to a list, reproduced here. -/
def validateWords (ids : List String) (ws : List WordDoc) :
    Except HTTPError (List String) :=
  match ids with
  | [] => Except.ok []
  | id :: rest =>
    match validate_word_exists id ws with
    | Except.error e => Except.error e
    | Except.ok _ =>
      match validateWords rest ws with
      | Except.error e => Except.error e
      | Except.ok v => Except.ok (id :: v)

/-- Detail of the 409 raised by `create_wordlist` on an existing derived key. -/
def conflictMsg (user_id folder_id : String) : String :=
  "WordList already exists for user " ++ user_id ++ " and folder " ++ folder_id

/-- Detail of the 404 raised when a WordList id matches no document. -/
def wlNotFoundMsg (lid : String) : String :=
  "WordList " ++ lid ++ " not found"

/-- Embeds `create_wordlist` (`routers/wordlists_router.py` lines 146-210).
Order as in the source: derive the id, 409 if a document with that id exists,
validate the folder, validate each requested word, then insert. The stored
`words` array is the request's array appended id by id — the source performs
no deduplication here. The insert-failure 500 branch (a driver failure) is
not modelled: insertion into a list always succeeds. -/
def create_wordlist (req : CreateWordListRequest) (now : Nat)
    (s : List WordListDoc) (ws : List WordDoc) (fs : List FolderDoc) :
    Except HTTPError WordListDoc × List WordListDoc :=
  let word_list_id := generate_wordlist_id req.user_id req.folder_id
  match findWordList s word_list_id with
  | some _ => (Except.error ⟨409, conflictMsg req.user_id req.folder_id⟩, s)
  | none =>
    match validate_folder_exists req.folder_id fs with
    | Except.error e => (Except.error e, s)
    | Except.ok _ =>
      match validateWords req.words ws with
      | Except.error e => (Except.error e, s)
      | Except.ok validated_words =>
        let doc : WordListDoc :=
          ⟨word_list_id, req.user_id, req.folder_id, validated_words, now, now⟩
        (Except.ok doc, s ++ [doc])

/-- Embeds `resolve_words_in_wordlist` (`routers/wordlists_router.py` lines
95-126): look up each member id; found documents are appended (the source
additionally strips the unmodelled `_id`), missing ones are skipped with a
log line and do not fail the call. -/
def resolve_words_in_wordlist (wl : WordListDoc) (ws : List WordDoc) :
    ResolvedWordList :=
  ⟨wl.word_list_id, wl.user_id, wl.folder_id,
    wl.words.filterMap (fun word_id => findWord ws word_id),
    wl.created_at, wl.updated_at⟩

/-- Embeds `get_wordlist_with_words` (`routers/wordlists_router.py` lines
245-278): 404 for an unknown id, otherwise resolve. Read-only, so no state
is returned. -/
def get_wordlist_with_words (lid : String) (s : List WordListDoc)
    (ws : List WordDoc) : Except HTTPError ResolvedWordList :=
  match findWordList s lid with
  | none => Except.error ⟨404, wlNotFoundMsg lid⟩
  | some wl => Except.ok (resolve_words_in_wordlist wl ws)

/-- Embeds `get_folder_wordlist_with_words` (`routers/wordlists_router.py`
lines 518-566): derive the key; when no document matches, return a
well-formed empty WordList stamped with the current time instead of an
error; otherwise resolve. Never fails. -/
def get_folder_wordlist_with_words (user_id folder_id : String) (now : Nat)
    (s : List WordListDoc) (ws : List WordDoc) : ResolvedWordList :=
  let word_list_id := generate_wordlist_id user_id folder_id
  match findWordList s word_list_id with
  | none => ⟨word_list_id, user_id, folder_id, [], now, now⟩
  | some wl => resolve_words_in_wordlist wl ws

/-- The `$set` document built by `update_wordlist`: always `updated_at`, plus
`user_id` / `folder_id` when supplied. The stored `word_list_id` is not
touched. -/
def applyUpdate (req : UpdateWordListRequest) (now : Nat) (d : WordListDoc) :
    WordListDoc :=
  { d with
    user_id := req.user_id.getD d.user_id,
    folder_id := req.folder_id.getD d.folder_id,
    updated_at := now }

/-- Embeds `update_wordlist` (`routers/wordlists_router.py` lines 281-336):
404 for an unknown id; validate the new folder when one is supplied; apply
the `$set` to the first matching document; re-fetch and return it. The
`matched_count == 0` re-check of the source is the unreachable `none` branch
of the re-fetch. -/
def update_wordlist (lid : String) (req : UpdateWordListRequest) (now : Nat)
    (s : List WordListDoc) (fs : List FolderDoc) :
    Except HTTPError WordListDoc × List WordListDoc :=
  match findWordList s lid with
  | none => (Except.error ⟨404, wlNotFoundMsg lid⟩, s)
  | some _ =>
    let commit : Except HTTPError WordListDoc × List WordListDoc :=
      let s2 := update_first (fun wl => wl.word_list_id == lid)
        (applyUpdate req now) s
      match findWordList s2 lid with
      | some updated => (Except.ok updated, s2)
      | none => (Except.error ⟨404, "WordList not found"⟩, s2)
    match req.folder_id with
    | some fid =>
      match validate_folder_exists fid fs with
      | Except.error e => (Except.error e, s)
      | Except.ok _ => commit
    | none => commit

/-- Embeds `delete_wordlist` (`routers/wordlists_router.py` lines 339-374):
404 for an unknown id, then `delete_one` by id; the returned data is the
id with a deleted flag. The `deleted_count == 0` 500 branch is unreachable
after the existence check in this sequential model. -/
def delete_wordlist (lid : String) (s : List WordListDoc) :
    Except HTTPError (String × Bool) × List WordListDoc :=
  match findWordList s lid with
  | none => (Except.error ⟨404, wlNotFoundMsg lid⟩, s)
  | some _ =>
    (Except.ok (lid, true), delete_first (fun wl => wl.word_list_id == lid) s)

/-- `set(l)` for a list of strings: duplicate-free, first occurrences kept
(`seen` accumulates the elements already emitted). -/
def dedupAux (seen : List String) : List String → List String
  | [] => []
  | x :: xs => if x ∈ seen then dedupAux seen xs else x :: dedupAux (seen ++ [x]) xs

/-- `set(l)` as used by `add_words_to_wordlist` on the current membership. -/
def pySet (l : List String) : List String := dedupAux [] l

/-- The add loop of `add_words_to_wordlist`: walk the requested ids, skip
those already in `cur`, add the others to `cur` and collect them as
`new_words`. Returns (final membership, new_words). -/
def addNewWords (cur : List String) : List String → List String × List String
  | [] => (cur, [])
  | id :: rest =>
    if id ∈ cur then addNewWords cur rest
    else
      let r := addNewWords (cur ++ [id]) rest
      (r.1, id :: r.2)

/-- Embeds `add_words_to_wordlist` (`routers/wordlists_router.py` lines
382-447): 404 for an unknown list; validate every requested id (first
missing id aborts with 404 before any write); dedup-union the request into
the membership; `$set` the new array and `updated_at`; re-fetch. The
response message's two counts — `len(new_words)` added and
`len(request.word_ids) - len(new_words)` skipped duplicates — are returned
as the two numbers next to the document. -/
def add_words_to_wordlist (lid : String) (word_ids : List String) (now : Nat)
    (s : List WordListDoc) (ws : List WordDoc) :
    Except HTTPError (WordListDoc × Nat × Nat) × List WordListDoc :=
  match findWordList s lid with
  | none => (Except.error ⟨404, wlNotFoundMsg lid⟩, s)
  | some existing =>
    match validateWords word_ids ws with
    | Except.error e => (Except.error e, s)
    | Except.ok _ =>
      let current_words := pySet existing.words
      let r := addNewWords current_words word_ids
      let s2 := update_first (fun wl => wl.word_list_id == lid)
        (fun wl => { wl with words := r.1, updated_at := now }) s
      match findWordList s2 lid with
      | some updated =>
        (Except.ok (updated, r.2.length, word_ids.length - r.2.length), s2)
      | none => (Except.error ⟨404, "WordList not found"⟩, s2)

/-- Message when `remove_word_from_wordlist` removed the word. -/
def removedMsg (word_id : String) : String :=
  "Word " ++ word_id ++ " removed from WordList"

/-- Message when `remove_word_from_wordlist` found nothing to remove. -/
def notInListMsg (word_id : String) : String :=
  "Word " ++ word_id ++ " was not in WordList"

/-- Embeds `remove_word_from_wordlist` (`routers/wordlists_router.py` lines
450-510): 404 for an unknown list; when the word is present, remove its
first occurrence (`list.remove`) and `$set` the array and `updated_at`;
when absent, issue no write at all; in both branches re-fetch the document
and return it with the branch's message. -/
def remove_word_from_wordlist (lid word_id : String) (now : Nat)
    (s : List WordListDoc) :
    Except HTTPError (WordListDoc × String) × List WordListDoc :=
  match findWordList s lid with
  | none => (Except.error ⟨404, wlNotFoundMsg lid⟩, s)
  | some existing =>
    if word_id ∈ existing.words then
      let s2 := update_first (fun wl => wl.word_list_id == lid)
        (fun wl => { wl with words := wl.words.erase word_id, updated_at := now }) s
      match findWordList s2 lid with
      | some updated => (Except.ok (updated, removedMsg word_id), s2)
      | none => (Except.error ⟨404, "WordList not found"⟩, s2)
    else
      match findWordList s lid with
      | some updated => (Except.ok (updated, notInListMsg word_id), s)
      | none => (Except.error ⟨404, wlNotFoundMsg lid⟩, s)

/-- One mutating request against the wordlists collection. -/
inductive Op where
  | createOp (req : CreateWordListRequest) (now : Nat)
  | updateOp (lid : String) (req : UpdateWordListRequest) (now : Nat)
  | addWordsOp (lid : String) (word_ids : List String) (now : Nat)
  | removeWordOp (lid : String) (word_id : String) (now : Nat)
  | deleteOp (lid : String)

/-- The wordlists collection after one API operation (on an error response
the handlers above return the collection untouched, since every raise in
the source precedes the write). -/
def apply_op (op : Op) (ws : List WordDoc) (fs : List FolderDoc)
    (s : List WordListDoc) : List WordListDoc :=
  match op with
  | Op.createOp req now => (create_wordlist req now s ws fs).2
  | Op.updateOp lid req now => (update_wordlist lid req now s fs).2
  | Op.addWordsOp lid ids now => (add_words_to_wordlist lid ids now s ws).2
  | Op.removeWordOp lid wid now => (remove_word_from_wordlist lid wid now s).2
  | Op.deleteOp lid => (delete_wordlist lid s).2

/-- The first requested id that has no document in the words collection, if
any — the id whose validation aborts `create_wordlist` / `add_words_to_wordlist`. -/
def firstMissing (ids : List String) (ws : List WordDoc) : Option String :=
  ids.find? (fun i => (findWord ws i).isNone)

/-- Derived-key invariant: every stored WordList's id is the derived key of
its own stored owner and folder. -/
@[reducible] def keyInv (s : List WordListDoc) : Prop :=
  ∀ wl ∈ s, wl.word_list_id = generate_wordlist_id wl.user_id wl.folder_id

/-- Membership invariant: every stored WordList's words array is
duplicate-free. -/
@[reducible] def nodupInv (s : List WordListDoc) : Prop :=
  ∀ wl ∈ s, wl.words.Nodup

/-! ## Concrete fixtures used by witnesses and counterexamples -/

/-- Fixture: a word document with every optional field populated. -/
def fixApple : WordDoc :=
  ⟨"A", "apple", "a fruit", some "I ate an apple", some "image_users/A.jpg", 0, 0⟩

/-- Fixture: a word document without example or image. -/
def fixBee : WordDoc := ⟨"B", "bee", "an insect", none, none, 0, 0⟩

/-- Fixture words collection. -/
def fixWords : List WordDoc := [fixApple, fixBee]

/-- Fixture: a syntactically valid (24-hex) folder id. -/
def fixFolderA : String := "aaaaaaaaaaaaaaaaaaaaaaaa"

/-- Fixture: a second syntactically valid folder id. -/
def fixFolderB : String := "bbbbbbbbbbbbbbbbbbbbbbbb"

/-- Fixture folders collection, both folders owned by the test user. -/
def fixFolders : List FolderDoc :=
  [⟨fixFolderA, "u@x.com", "f1"⟩, ⟨fixFolderB, "u@x.com", "f2"⟩]

/-- Fixture: a folders collection whose only folder belongs to another user. -/
def foreignFolders : List FolderDoc := [⟨fixFolderA, "owner@x.com", "f"⟩]

/-- Fixture: a stored WordList for the test user and folder A. -/
def fixList : WordListDoc :=
  ⟨generate_wordlist_id ("u@x.com") fixFolderA, "u@x.com", fixFolderA, ["A", "B"], 0, 0⟩

/-- Fixture wordlists collection holding `fixList`. -/
def fixState : List WordListDoc := [fixList]

/-- Fixture: a stored WordList with empty membership. -/
def fixEmptyList : WordListDoc :=
  ⟨generate_wordlist_id ("u@x.com") fixFolderA, "u@x.com", fixFolderA, [], 0, 0⟩

/-- Fixture wordlists collection holding `fixEmptyList`. -/
def fixEmptyState : List WordListDoc := [fixEmptyList]

/-- Fixture: a stored WordList whose membership has a dangling reference. -/
def fixDanglingList : WordListDoc :=
  ⟨generate_wordlist_id ("u@x.com") fixFolderA, "u@x.com", fixFolderA, ["A", "GONE"], 0, 0⟩

example : generate_wordlist_id ("user123") ("folder456") = "list_user123_folder456" := by decide
example : generate_wordlist_id ("a@b.c") ("x-y") = "list_a_b_c_x_y" := by decide

/-! ## Helper lemmas on the generic store operations -/

/-- A successful `find?` splits the list at the first match. -/
theorem find?_split {α : Type} (p : α → Bool) (l : List α) (a : α)
    (h : l.find? p = some a) :
    ∃ pre post, l = pre ++ a :: post ∧ (∀ d ∈ pre, p d = false) ∧ p a = true := by
  induction l with
  | nil => simp [List.find?] at h
  | cons x xs ih =>
    by_cases hx : p x
    · rw [List.find?_cons_of_pos _ hx] at h
      obtain rfl : x = a := by simpa using h
      exact ⟨[], xs, rfl, by simp, hx⟩
    · rw [List.find?_cons_of_neg _ (by simpa using hx)] at h
      obtain ⟨pre, post, rfl, hpre, ha⟩ := ih h
      exact ⟨x :: pre, post, rfl, by
        intro d hd
        rcases List.mem_cons.mp hd with rfl | hd
        · simpa using hx
        · exact hpre d hd, ha⟩

/-- `update_first` on a list whose prefix has no match rewrites exactly the
head of the suffix. -/
theorem update_first_append {α : Type} (p : α → Bool) (g : α → α)
    (pre post : List α) (a : α)
    (hpre : ∀ d ∈ pre, p d = false) (ha : p a = true) :
    update_first p g (pre ++ a :: post) = pre ++ g a :: post := by
  induction pre with
  | nil => simp [update_first, ha]
  | cons x xs ih =>
    have hx := hpre x (by simp)
    simp only [List.cons_append, update_first, hx, Bool.false_eq_true, if_false,
      List.cons.injEq, true_and]
    exact ih (fun d hd => hpre d (by simp [hd]))

/-- `find?` on a list whose prefix has no match returns the head of the
suffix when it matches. -/
theorem find?_append_first {α : Type} (p : α → Bool) (pre post : List α) (b : α)
    (hpre : ∀ d ∈ pre, p d = false) (hb : p b = true) :
    (pre ++ b :: post).find? p = some b := by
  induction pre with
  | nil => simp [List.find?_cons_of_pos _ hb]
  | cons x xs ih =>
    have hx := hpre x (by simp)
    rw [List.cons_append, List.find?_cons_of_neg _ (by simp [hx])]
    exact ih (fun d hd => hpre d (by simp [hd]))

/-- `delete_first` on a list whose prefix has no match drops exactly the head
of the suffix. -/
theorem delete_first_append {α : Type} (p : α → Bool) (pre post : List α) (a : α)
    (hpre : ∀ d ∈ pre, p d = false) (ha : p a = true) :
    delete_first p (pre ++ a :: post) = pre ++ post := by
  induction pre with
  | nil => simp [delete_first, ha]
  | cons x xs ih =>
    have hx := hpre x (by simp)
    simp only [List.cons_append, delete_first, hx, Bool.false_eq_true, if_false,
      List.cons.injEq, true_and]
    exact ih (fun d hd => hpre d (by simp [hd]))

/-- Every element of `update_first p g l` is an element of `l` or the image
under `g` of one. -/
theorem mem_update_first {α : Type} (p : α → Bool) (g : α → α) (l : List α) (x : α)
    (h : x ∈ update_first p g l) : x ∈ l ∨ ∃ d ∈ l, x = g d := by
  induction l with
  | nil => simp [update_first] at h
  | cons y ys ih =>
    by_cases hy : p y
    · simp only [update_first, hy, if_true] at h
      rcases List.mem_cons.mp h with rfl | h
      · exact Or.inr ⟨y, by simp, rfl⟩
      · exact Or.inl (by simp [h])
    · simp only [update_first, hy, if_false] at h
      rcases List.mem_cons.mp h with rfl | h
      · exact Or.inl (by simp)
      · rcases ih h with h | ⟨d, hd, rfl⟩
        · exact Or.inl (by simp [h])
        · exact Or.inr ⟨d, by simp [hd], rfl⟩

/-- `delete_first` only removes elements. -/
theorem mem_delete_first {α : Type} (p : α → Bool) (l : List α) (x : α)
    (h : x ∈ delete_first p l) : x ∈ l := by
  induction l with
  | nil => simp [delete_first] at h
  | cons y ys ih =>
    by_cases hy : p y
    · simp only [delete_first, hy, if_true] at h
      exact by simp [h]
    · simp only [delete_first, hy, if_false] at h
      rcases List.mem_cons.mp h with rfl | h
      · simp
      · simp [ih h]

/-! ## Helper lemmas on the Python-set model -/

/-- Membership in `dedupAux`: the elements of `l` not already seen. -/
theorem mem_dedupAux (l : List String) (seen : List String) (x : String) :
    x ∈ dedupAux seen l ↔ x ∈ l ∧ x ∉ seen := by
  induction l generalizing seen with
  | nil => simp [dedupAux]
  | cons y ys ih =>
    by_cases hy : y ∈ seen
    · simp only [dedupAux, hy, if_true, ih, List.mem_cons]
      constructor
      · rintro ⟨h1, h2⟩; exact ⟨Or.inr h1, h2⟩
      · rintro ⟨h1 | h1, h2⟩
        · exact absurd (h1 ▸ hy) h2
        · exact ⟨h1, h2⟩
    · simp only [dedupAux, hy, if_false, List.mem_cons, ih, List.mem_append,
        List.mem_singleton]
      constructor
      · rintro (rfl | ⟨h1, h2⟩)
        · exact ⟨Or.inl rfl, hy⟩
        · exact ⟨Or.inr h1, fun hc => h2 (Or.inl hc)⟩
      · rintro ⟨rfl | h1, h2⟩
        · exact Or.inl rfl
        · by_cases hxy : x = y
          · exact Or.inl hxy
          · exact Or.inr ⟨h1, by simp [h2, hxy]⟩

/-- `dedupAux` emits no duplicates. -/
theorem nodup_dedupAux (l : List String) (seen : List String) :
    (dedupAux seen l).Nodup := by
  induction l generalizing seen with
  | nil => simp [dedupAux]
  | cons y ys ih =>
    by_cases hy : y ∈ seen
    · simpa [dedupAux, hy] using ih seen
    · simp only [dedupAux, hy, if_false, List.nodup_cons]
      refine ⟨fun hc => ?_, ih _⟩
      exact ((mem_dedupAux ys _ y).mp hc).2 (by simp)

/-- `pySet` keeps exactly the elements of its input. -/
theorem mem_pySet (l : List String) (x : String) : x ∈ pySet l ↔ x ∈ l := by
  simp [pySet, mem_dedupAux]

/-- `pySet` is duplicate-free. -/
theorem nodup_pySet (l : List String) : (pySet l).Nodup := nodup_dedupAux l []

/-! ## Helper lemmas on the add loop -/

/-- The final membership of `addNewWords` is the union of the current
membership and the requested ids. -/
theorem mem_addNewWords_fst (ids : List String) (cur : List String) (x : String) :
    x ∈ (addNewWords cur ids).1 ↔ x ∈ cur ∨ x ∈ ids := by
  induction ids generalizing cur with
  | nil => simp [addNewWords]
  | cons id rest ih =>
    by_cases hid : id ∈ cur
    · simp only [addNewWords, hid, if_true, ih, List.mem_cons]
      constructor
      · rintro (h | h)
        · exact Or.inl h
        · exact Or.inr (Or.inr h)
      · rintro (h | rfl | h)
        · exact Or.inl h
        · exact Or.inl hid
        · exact Or.inr h
    · simp only [addNewWords, hid, if_false, ih, List.mem_append,
        List.mem_singleton, List.mem_cons]
      tauto

/-- `addNewWords` keeps the membership duplicate-free. -/
theorem nodup_addNewWords_fst (ids : List String) (cur : List String)
    (h : cur.Nodup) : (addNewWords cur ids).1.Nodup := by
  induction ids generalizing cur with
  | nil => simpa [addNewWords]
  | cons id rest ih =>
    by_cases hid : id ∈ cur
    · simpa [addNewWords, hid] using ih cur h
    · simp only [addNewWords, hid, if_false]
      exact ih _ (by simp [List.nodup_append, h, hid])

/-- The collected `new_words` depend on the current membership only through
membership. -/
theorem addNewWords_snd_congr (ids : List String) (cur₁ cur₂ : List String)
    (h : ∀ i ∈ ids, (i ∈ cur₁ ↔ i ∈ cur₂)) :
    (addNewWords cur₁ ids).2 = (addNewWords cur₂ ids).2 := by
  induction ids generalizing cur₁ cur₂ with
  | nil => simp [addNewWords]
  | cons id rest ih =>
    have hid := h id (by simp)
    by_cases h1 : id ∈ cur₁
    · have h2 : id ∈ cur₂ := hid.mp h1
      simp only [addNewWords, h1, h2, if_true]
      exact ih _ _ (fun i hi => h i (by simp [hi]))
    · have h2 : id ∉ cur₂ := fun hc => h1 (hid.mpr hc)
      simp only [addNewWords, h1, h2, if_false, List.cons.injEq, true_and]
      exact ih _ _ (fun i hi => by
        simp only [List.mem_append, List.mem_singleton]
        rw [h i (by simp [hi])])

/-- For a duplicate-free request, `new_words` is exactly the requested ids
not already present. -/
theorem addNewWords_snd_of_nodup (ids : List String) (cur : List String)
    (h : ids.Nodup) :
    (addNewWords cur ids).2 = ids.filter (fun i => decide (i ∉ cur)) := by
  induction ids generalizing cur with
  | nil => simp [addNewWords]
  | cons id rest ih =>
    rw [List.nodup_cons] at h
    by_cases hid : id ∈ cur
    · rw [List.filter_cons_of_neg (by simp [hid])]
      simp only [addNewWords, hid, if_true]
      exact ih _ h.2
    · rw [List.filter_cons_of_pos (by simp [hid])]
      simp only [addNewWords, hid, if_false, List.cons.injEq, true_and]
      rw [addNewWords_snd_congr rest (cur ++ [id]) cur (fun i hi => by
        have hne : i ≠ id := fun e => h.1 (e ▸ hi)
        simp [List.mem_append, hne])]
      exact ih _ h.2

/-- A filter and its complement partition the length of a list. -/
theorem filter_length_split (p : String → Bool) (l : List String) :
    (l.filter p).length + (l.filter (fun a => !(p a))).length = l.length := by
  induction l with
  | nil => simp
  | cons x xs ih => by_cases hx : p x <;> simp [List.filter_cons, hx] <;> omega

/-! ## Helper lemmas on validation -/

/-- A successful validation loop returns exactly the requested ids
(`validated_words.append(word_id)` in request order). -/
theorem validateWords_ok (ids : List String) (ws : List WordDoc) (v : List String)
    (h : validateWords ids ws = Except.ok v) : v = ids := by
  induction ids generalizing v with
  | nil =>
    simp only [validateWords, Except.ok.injEq] at h
    exact h.symm
  | cons id rest ih =>
    simp only [validateWords, validate_word_exists] at h
    cases hf : findWord ws id with
    | none => rw [hf] at h; simp at h
    | some w =>
      rw [hf] at h
      cases hr : validateWords rest ws with
      | error e => rw [hr] at h; simp at h
      | ok v' =>
        rw [hr] at h
        simp only [Except.ok.injEq] at h
        rw [← h, ih v' hr]

/-- When every requested id exists, the validation loop succeeds with the
request itself. -/
theorem validateWords_ok_of_none_missing (ids : List String) (ws : List WordDoc)
    (h : firstMissing ids ws = none) : validateWords ids ws = Except.ok ids := by
  induction ids with
  | nil => simp [validateWords]
  | cons id rest ih =>
    rw [firstMissing, List.find?_eq_none] at h
    have hid : ¬ (findWord ws id).isNone = true := h id (by simp)
    cases hf : findWord ws id with
    | none => rw [hf] at hid; simp at hid
    | some w =>
      have hrest : firstMissing rest ws = none := by
        rw [firstMissing, List.find?_eq_none]
        exact fun a ha => h a (by simp [ha])
      simp only [validateWords, validate_word_exists, hf, ih hrest]

/-- The validation loop aborts at the first missing id, naming it in the
404 detail. -/
theorem validateWords_error_of_missing (ids : List String) (ws : List WordDoc)
    (k : String) (h : firstMissing ids ws = some k) :
    validateWords ids ws = Except.error ⟨404, wordNotFoundMsg k⟩ := by
  induction ids with
  | nil => simp [firstMissing, List.find?] at h
  | cons id rest ih =>
    rw [firstMissing, List.find?_cons] at h
    cases hf : findWord ws id with
    | none =>
      simp only [hf, Option.isNone_none, Option.some.injEq] at h
      subst h
      simp [validateWords, validate_word_exists, hf]
    | some w =>
      simp only [hf, Option.isNone_some] at h
      have := ih h
      simp only [validateWords, validate_word_exists, hf, this]

/-! ## Helper lemmas on the wordlists collection -/

/-- A found WordList splits the collection at its first occurrence. -/
theorem findWordList_split (s : List WordListDoc) (lid : String)
    (wl : WordListDoc) (h : findWordList s lid = some wl) :
    ∃ pre post, s = pre ++ wl :: post
      ∧ (∀ d ∈ pre, (d.word_list_id == lid) = false)
      ∧ wl.word_list_id = lid := by
  obtain ⟨pre, post, h1, h2, h3⟩ := find?_split _ s wl h
  exact ⟨pre, post, h1, h2, by simpa using h3⟩

/-- Updating the found WordList with an id-preserving rewrite: the collection
splits, the update rewrites exactly that document, and a re-fetch returns the
rewritten document. -/
theorem findWordList_update_refetch (s : List WordListDoc) (lid : String)
    (wl : WordListDoc) (g : WordListDoc → WordListDoc)
    (hg : (g wl).word_list_id = wl.word_list_id)
    (h : findWordList s lid = some wl) :
    ∃ pre post, s = pre ++ wl :: post
      ∧ (∀ d ∈ pre, (d.word_list_id == lid) = false)
      ∧ update_first (fun d => d.word_list_id == lid) g s = pre ++ g wl :: post
      ∧ findWordList (update_first (fun d => d.word_list_id == lid) g s) lid
          = some (g wl) := by
  obtain ⟨pre, post, hs, hpre, hid⟩ := findWordList_split s lid wl h
  have ha : (wl.word_list_id == lid) = true := by simp [hid]
  have hga : ((g wl).word_list_id == lid) = true := by simp [hg, hid]
  have hupd : update_first (fun d => d.word_list_id == lid) g s
      = pre ++ g wl :: post := by
    rw [hs]; exact update_first_append _ _ _ _ _ hpre ha
  refine ⟨pre, post, hs, hpre, hupd, ?_⟩
  rw [hupd]
  exact find?_append_first _ _ _ _ hpre hga

/-! ## State characterization of each endpoint -/

/-- The wordlists collection after `create_wordlist`: unchanged on every
error path, extended by the new document (carrying the derived key and the
request's words verbatim) on success. -/
theorem create_wordlist_state (req : CreateWordListRequest) (now : Nat)
    (s : List WordListDoc) (ws : List WordDoc) (fs : List FolderDoc) :
    (create_wordlist req now s ws fs).2 = s ∨
    (create_wordlist req now s ws fs).2 =
      s ++ [⟨generate_wordlist_id req.user_id req.folder_id,
             req.user_id, req.folder_id, req.words, now, now⟩] := by
  simp only [create_wordlist]
  split
  · left; rfl
  · split
    · left; rfl
    · split
      · left; rfl
      · next v hv =>
        right
        have hvv := validateWords_ok req.words ws v hv
        subst hvv
        rfl

/-- The wordlists collection after `update_wordlist`: unchanged on error,
otherwise the first matching document rewritten by the `$set`. -/
theorem update_wordlist_state (lid : String) (req : UpdateWordListRequest)
    (now : Nat) (s : List WordListDoc) (fs : List FolderDoc) :
    (update_wordlist lid req now s fs).2 = s ∨
    (update_wordlist lid req now s fs).2 =
      update_first (fun d => d.word_list_id == lid) (applyUpdate req now) s := by
  simp only [update_wordlist]
  split
  · left; rfl
  · split
    · split
      · left; rfl
      · split
        · right; rfl
        · right; rfl
    · split
      · right; rfl
      · right; rfl

/-- The wordlists collection after `add_words_to_wordlist`: unchanged on
error, otherwise the first matching document carries the dedup-union of its
previous membership and the request. -/
theorem add_words_state (lid : String) (ids : List String) (now : Nat)
    (s : List WordListDoc) (ws : List WordDoc) :
    (add_words_to_wordlist lid ids now s ws).2 = s ∨
    ∃ ex, findWordList s lid = some ex ∧
      (add_words_to_wordlist lid ids now s ws).2 =
        update_first (fun d => d.word_list_id == lid)
          (fun d => { d with words := (addNewWords (pySet ex.words) ids).1,
                             updated_at := now }) s := by
  simp only [add_words_to_wordlist]
  split
  · left; rfl
  · next ex hex =>
    split
    · left; rfl
    · split
      · right; exact ⟨ex, hex, rfl⟩
      · right; exact ⟨ex, hex, rfl⟩

/-- The wordlists collection after `remove_word_from_wordlist`: unchanged on
error and in the absent-word branch, otherwise the first matching document
with the word erased. -/
theorem remove_word_state (lid wid : String) (now : Nat)
    (s : List WordListDoc) :
    (remove_word_from_wordlist lid wid now s).2 = s ∨
    (remove_word_from_wordlist lid wid now s).2 =
      update_first (fun d => d.word_list_id == lid)
        (fun d => { d with words := d.words.erase wid, updated_at := now }) s := by
  simp only [remove_word_from_wordlist]
  split
  · left; rfl
  · split
    · split
      · right; rfl
      · right; rfl
    · split
      · left; rfl
      · left; rfl

/-- The wordlists collection after `delete_wordlist`: unchanged on error,
otherwise the first matching document removed. -/
theorem delete_wordlist_state (lid : String) (s : List WordListDoc) :
    (delete_wordlist lid s).2 = s ∨
    (delete_wordlist lid s).2 = delete_first (fun d => d.word_list_id == lid) s := by
  simp only [delete_wordlist]
  split
  · left; rfl
  · right; rfl

/-! ## Invariant preservation helpers -/

/-- `keyInv` survives appending a document that satisfies the key equation. -/
theorem keyInv_append (s : List WordListDoc) (d : WordListDoc) (hs : keyInv s)
    (hd : d.word_list_id = generate_wordlist_id d.user_id d.folder_id) :
    keyInv (s ++ [d]) := by
  intro wl hwl
  rcases List.mem_append.mp hwl with h | h
  · exact hs wl h
  · rw [List.mem_singleton] at h
    subst h
    exact hd

/-- `keyInv` survives any update that keeps id, owner and folder. -/
theorem keyInv_update_first (p : WordListDoc → Bool)
    (g : WordListDoc → WordListDoc) (s : List WordListDoc) (hs : keyInv s)
    (hg : ∀ d, (g d).word_list_id = d.word_list_id ∧ (g d).user_id = d.user_id
          ∧ (g d).folder_id = d.folder_id) :
    keyInv (update_first p g s) := by
  intro wl hwl
  rcases mem_update_first p g s wl hwl with h | ⟨d, hd, rfl⟩
  · exact hs wl h
  · rw [(hg d).1, (hg d).2.1, (hg d).2.2]
    exact hs d hd

/-- `keyInv` survives document deletion. -/
theorem keyInv_delete_first (p : WordListDoc → Bool) (s : List WordListDoc)
    (hs : keyInv s) : keyInv (delete_first p s) :=
  fun wl hwl => hs wl (mem_delete_first p s wl hwl)

/-- `nodupInv` survives appending a duplicate-free document. -/
theorem nodupInv_append (s : List WordListDoc) (d : WordListDoc)
    (hs : nodupInv s) (hd : d.words.Nodup) : nodupInv (s ++ [d]) := by
  intro wl hwl
  rcases List.mem_append.mp hwl with h | h
  · exact hs wl h
  · rw [List.mem_singleton] at h
    subst h
    exact hd

/-- `nodupInv` survives any update that keeps membership duplicate-free. -/
theorem nodupInv_update_first (p : WordListDoc → Bool)
    (g : WordListDoc → WordListDoc) (s : List WordListDoc) (hs : nodupInv s)
    (hg : ∀ d, d.words.Nodup → (g d).words.Nodup) :
    nodupInv (update_first p g s) := by
  intro wl hwl
  rcases mem_update_first p g s wl hwl with h | ⟨d, hd, rfl⟩
  · exact hs wl h
  · exact hg d (hs d hd)

/-- `nodupInv` survives document deletion. -/
theorem nodupInv_delete_first (p : WordListDoc → Bool) (s : List WordListDoc)
    (hs : nodupInv s) : nodupInv (delete_first p s) :=
  fun wl hwl => hs wl (mem_delete_first p s wl hwl)

/-! ## Claim theorems -/

/-- C1: the WordList key derivation is a pure, total function of
(ownerId, folderId): it maps every `@` and every `.` of the owner id to `_`,
every `-` of the folder id to `_`, and concatenates `"list_"`, the sanitized
owner, `"_"` and the sanitized folder. Determinism and absence of failure
modes are inherent: `generate_wordlist_id` is a total Lean function. -/
theorem generate_wordlist_id_spec (user_id folder_id : String) :
    (generate_wordlist_id user_id folder_id).data =
      ("list_").data
        ++ user_id.data.map (fun c => if c = '@' then '_' else if c = '.' then '_' else c)
        ++ ("_").data
        ++ folder_id.data.map (fun c => if c = '-' then '_' else c) := by
  have hmap : (user_id.data.map fun c => if c = '@' then '_' else c).map
        (fun c => if c = '.' then '_' else c)
      = user_id.data.map
        (fun c => if c = '@' then '_' else if c = '.' then '_' else c) := by
    rw [List.map_map]
    refine List.map_congr_left fun c _ => ?_
    by_cases h1 : c = '@'
    · subst h1; decide
    · by_cases h2 : c = '.'
      · subst h2; decide
      · simp [Function.comp, h1, h2]
  simp only [generate_wordlist_id, replaceChar, String.data_append]
  rw [hmap]

/-- C2: if a WordList whose id equals the derived key for (owner, folder)
already exists, a second create request for that pair fails with 409 Conflict
and the wordlists collection — hence the existing WordList's membership — is
returned unchanged: the handler raises before any write. -/
theorem create_wordlist_conflict (req : CreateWordListRequest) (now : Nat)
    (s : List WordListDoc) (ws : List WordDoc) (fs : List FolderDoc)
    (wl : WordListDoc)
    (h : findWordList s (generate_wordlist_id req.user_id req.folder_id) = some wl) :
    create_wordlist req now s ws fs =
      (Except.error ⟨409, conflictMsg req.user_id req.folder_id⟩, s) := by
  simp only [create_wordlist, h]

/-- Witness for C2 at a concrete state: creating again for the pair behind
`fixList` yields the 409 and leaves the collection as it was. -/
theorem create_wordlist_conflict_witness :
    create_wordlist ⟨"u@x.com", fixFolderA, []⟩ 9 fixState fixWords fixFolders =
      (Except.error ⟨409, conflictMsg ("u@x.com") fixFolderA⟩, fixState) :=
  create_wordlist_conflict ⟨"u@x.com", fixFolderA, []⟩ 9 fixState fixWords
    fixFolders fixList rfl

/-- C5: resolution tolerates dangling references. For any WordList document:
a member id with no document in the words collection contributes nothing to
the resolved output (no resolved record carries that id); a member id whose
document exists contributes that full document; and the read endpoint
succeeds on any found WordList regardless of dangling members. -/
theorem resolve_tolerates_dangling (wl : WordListDoc) (ws : List WordDoc) :
    (∀ word_id ∈ wl.words, findWord ws word_id = none →
      ∀ w ∈ (resolve_words_in_wordlist wl ws).words, w.word_id ≠ word_id)
    ∧ (∀ word_id ∈ wl.words, ∀ w, findWord ws word_id = some w →
      w ∈ (resolve_words_in_wordlist wl ws).words)
    ∧ (∀ lid s, findWordList s lid = some wl →
      get_wordlist_with_words lid s ws =
        Except.ok (resolve_words_in_wordlist wl ws)) := by
  refine ⟨?_, ?_, ?_⟩
  · intro word_id _ hnone w hw heq
    simp only [resolve_words_in_wordlist, List.mem_filterMap] at hw
    obtain ⟨a, _, hfa⟩ := hw
    have hwa : w.word_id = a := by simpa using List.find?_some hfa
    rw [heq] at hwa
    rw [← hwa, hnone] at hfa
    exact Option.noConfusion hfa
  · intro word_id hmem w hsome
    simp only [resolve_words_in_wordlist, List.mem_filterMap]
    exact ⟨word_id, hmem, hsome⟩
  · intro lid s hfind
    simp only [get_wordlist_with_words, hfind]

/-- Witness for C5 at a concrete state: in `fixDanglingList` the member
`GONE` has no document and is excluded, while the member `A` resolves to its
full document. -/
theorem resolve_tolerates_dangling_witness :
    fixApple.word_id ≠ "GONE"
    ∧ fixApple ∈ (resolve_words_in_wordlist fixDanglingList fixWords).words :=
  ⟨(resolve_tolerates_dangling fixDanglingList fixWords).1 ("GONE") (by decide)
      rfl fixApple (by decide),
   (resolve_tolerates_dangling fixDanglingList fixWords).2.1 ("A") (by decide)
      fixApple rfl⟩

/-- C8: lookup asymmetry. When no WordList exists for the derived key of a
(owner, folder) pair, the folder-scoped convenience lookup returns a
well-formed WordList shape — the derived id, the caller's pair, an empty
members array, and timestamps freshly stamped with the current time — never a
not-found error; the direct lookup-by-id of an id matching no record fails
with 404. -/
theorem folder_lookup_asymmetry (s : List WordListDoc) (ws : List WordDoc) :
    (∀ user_id folder_id : String, ∀ now : Nat,
      findWordList s (generate_wordlist_id user_id folder_id) = none →
      get_folder_wordlist_with_words user_id folder_id now s ws =
        ⟨generate_wordlist_id user_id folder_id, user_id, folder_id, [], now, now⟩)
    ∧ (∀ lid : String, findWordList s lid = none →
      get_wordlist_with_words lid s ws = Except.error ⟨404, wlNotFoundMsg lid⟩) := by
  constructor
  · intro u f now h
    simp only [get_folder_wordlist_with_words, h]
  · intro lid h
    simp only [get_wordlist_with_words, h]

/-- Witness for C8 at a concrete state: a never-created pair yields the empty
shape, while a direct fetch of an unknown id yields the 404. -/
theorem folder_lookup_asymmetry_witness :
    get_folder_wordlist_with_words ("new@x.com") fixFolderB 9 fixState fixWords =
      ⟨generate_wordlist_id ("new@x.com") fixFolderB, "new@x.com", fixFolderB, [], 9, 9⟩
    ∧ get_wordlist_with_words ("nope") fixState fixWords =
      Except.error ⟨404, wlNotFoundMsg ("nope")⟩ :=
  ⟨(folder_lookup_asymmetry fixState fixWords).1 ("new@x.com") fixFolderB 9 rfl,
   (folder_lookup_asymmetry fixState fixWords).2 ("nope") rfl⟩

/-- C10: remove is idempotent with a strict frame. Removing an absent key
returns success with the stored document exactly as it was (every field,
`updated_at` included, keeps its prior value — no write is issued) and the
collection unchanged. Removing a present key removes exactly one occurrence
(membership length drops by exactly one), changes only the `words` array and
`updated_at` of that document, and leaves every other stored document — the
split into `pre` and `post` — untouched. -/
theorem remove_word_frame (lid word_id : String) (now : Nat)
    (s : List WordListDoc) (wl : WordListDoc)
    (h : findWordList s lid = some wl) :
    (word_id ∉ wl.words →
      remove_word_from_wordlist lid word_id now s =
        (Except.ok (wl, notInListMsg word_id), s))
    ∧ (word_id ∈ wl.words →
      ∃ pre post, s = pre ++ wl :: post
        ∧ remove_word_from_wordlist lid word_id now s =
          (Except.ok ({ wl with words := wl.words.erase word_id,
                                updated_at := now },
             removedMsg word_id),
           pre ++ { wl with words := wl.words.erase word_id,
                            updated_at := now } :: post)
        ∧ (wl.words.erase word_id).length + 1 = wl.words.length) := by
  constructor
  · intro hmem
    simp only [remove_word_from_wordlist, h]
    rw [if_neg hmem]
  · intro hmem
    obtain ⟨pre, post, hs, hpre, hupd, hre⟩ :=
      findWordList_update_refetch s lid wl
        (fun d => { d with words := d.words.erase word_id, updated_at := now })
        rfl h
    refine ⟨pre, post, hs, ?_, List.length_erase_add_one hmem⟩
    simp only [remove_word_from_wordlist, h]
    rw [if_pos hmem]
    rw [hre]
    simp only [hupd]

/-- Witness for C10 at a concrete state: removing the absent key `Z` from
`fixList` returns the stored document and collection untouched. -/
theorem remove_word_frame_witness :
    remove_word_from_wordlist (generate_wordlist_id ("u@x.com") fixFolderA)
        ("Z") 9 fixState =
      (Except.ok (fixList, notInListMsg ("Z")), fixState) :=
  (remove_word_frame (generate_wordlist_id ("u@x.com") fixFolderA) ("Z") 9
    fixState fixList rfl).1 (by decide)

/-- C3: the add-words operation is all-or-nothing. If some requested key has
no document in the Reference Store, the whole call fails with a 404 naming
the (first) missing key and the collection is returned untouched — no
partial write. If every requested key exists, the dedup-union of the old
membership and the request (membership-wise exactly the set union) is
written to the stored document. -/
theorem add_words_all_or_nothing (lid : String) (word_ids : List String)
    (now : Nat) (s : List WordListDoc) (ws : List WordDoc) (wl : WordListDoc)
    (h : findWordList s lid = some wl) :
    (∀ k, firstMissing word_ids ws = some k →
      add_words_to_wordlist lid word_ids now s ws =
        (Except.error ⟨404, wordNotFoundMsg k⟩, s))
    ∧ (firstMissing word_ids ws = none →
      (∀ x, x ∈ (addNewWords (pySet wl.words) word_ids).1 ↔
        x ∈ wl.words ∨ x ∈ word_ids)
      ∧ add_words_to_wordlist lid word_ids now s ws =
        (Except.ok ({ wl with words := (addNewWords (pySet wl.words) word_ids).1,
                              updated_at := now },
          (addNewWords (pySet wl.words) word_ids).2.length,
          word_ids.length - (addNewWords (pySet wl.words) word_ids).2.length),
         update_first (fun d => d.word_list_id == lid)
           (fun d => { d with words := (addNewWords (pySet wl.words) word_ids).1,
                              updated_at := now }) s)) := by
  constructor
  · intro k hk
    have hv := validateWords_error_of_missing word_ids ws k hk
    simp only [add_words_to_wordlist, h, hv]
  · intro hnone
    have hv := validateWords_ok_of_none_missing word_ids ws hnone
    constructor
    · intro x
      rw [mem_addNewWords_fst, mem_pySet]
    · obtain ⟨pre, post, hs, hpre, hupd, hre⟩ :=
        findWordList_update_refetch s lid wl
          (fun d => { d with words := (addNewWords (pySet wl.words) word_ids).1,
                             updated_at := now })
          rfl h
      simp only [add_words_to_wordlist, h, hv, hre]

/-- Witness for C3 at a concrete state: requesting the unknown key `ZZZ`
fails with the 404 naming it and leaves the collection untouched. -/
theorem add_words_all_or_nothing_witness :
    add_words_to_wordlist (generate_wordlist_id ("u@x.com") fixFolderA)
        ["ZZZ"] 9 fixState fixWords =
      (Except.error ⟨404, wordNotFoundMsg ("ZZZ")⟩, fixState) :=
  (add_words_all_or_nothing (generate_wordlist_id ("u@x.com") fixFolderA)
    ["ZZZ"] 9 fixState fixWords fixList rfl).1 ("ZZZ") rfl

/-- Counterexample to C4 as stated: on the empty-membership `fixEmptyList`,
one call requesting `["A", "A"]` (both existing) reports 1 skipped duplicate
— the second in-call occurrence of `A` — although the number of requested
keys that were already members before the call is 0, and 1 is not 0. -/
theorem add_words_dup_count_cex :
    (add_words_to_wordlist (generate_wordlist_id ("u@x.com") fixFolderA)
        ["A", "A"] 9 fixEmptyState fixWords).1 =
      Except.ok (⟨generate_wordlist_id ("u@x.com") fixFolderA, "u@x.com",
        fixFolderA, ["A"], 0, 9⟩, 1, 1)
    ∧ (["A", "A"].filter (fun i => decide (i ∈ fixEmptyList.words))).length = 0
    ∧ (1 : Nat) ≠ 0 := by
  refine ⟨rfl, rfl, by decide⟩

/-- C4 amended: after an add-words call whose keys all exist, each requested
key occurs exactly once in the written membership — whether it was requested
twice within the call or already present from before. The reported duplicate
count equals the number of requested keys already members before the call
when the request itself is duplicate-free; an in-call repetition of a
non-member key is also counted as a duplicate (see the counterexample). -/
theorem add_words_dedup_and_count (lid : String) (word_ids : List String)
    (now : Nat) (s : List WordListDoc) (ws : List WordDoc) (wl : WordListDoc)
    (h : findWordList s lid = some wl)
    (hok : firstMissing word_ids ws = none) :
    (∀ k ∈ word_ids, ((addNewWords (pySet wl.words) word_ids).1).count k = 1)
    ∧ (add_words_to_wordlist lid word_ids now s ws).1 =
        Except.ok ({ wl with words := (addNewWords (pySet wl.words) word_ids).1,
                             updated_at := now },
          (addNewWords (pySet wl.words) word_ids).2.length,
          word_ids.length - (addNewWords (pySet wl.words) word_ids).2.length)
    ∧ (word_ids.Nodup →
        word_ids.length - (addNewWords (pySet wl.words) word_ids).2.length =
          (word_ids.filter (fun i => decide (i ∈ wl.words))).length) := by
  refine ⟨?_, ?_, ?_⟩
  · intro k hk
    have hmem : k ∈ (addNewWords (pySet wl.words) word_ids).1 :=
      (mem_addNewWords_fst word_ids (pySet wl.words) k).mpr (Or.inr hk)
    have hnd : ((addNewWords (pySet wl.words) word_ids).1).Nodup :=
      nodup_addNewWords_fst word_ids (pySet wl.words) (nodup_pySet wl.words)
    exact List.count_eq_one_of_mem hnd hmem
  · have hv := validateWords_ok_of_none_missing word_ids ws hok
    obtain ⟨pre, post, hs, hpre, hupd, hre⟩ :=
      findWordList_update_refetch s lid wl
        (fun d => { d with words := (addNewWords (pySet wl.words) word_ids).1,
                           updated_at := now })
        rfl h
    simp only [add_words_to_wordlist, h, hv, hre]
  · intro hnd
    have hsnd : (addNewWords (pySet wl.words) word_ids).2 =
        word_ids.filter (fun i => decide (i ∉ pySet wl.words)) :=
      addNewWords_snd_of_nodup word_ids (pySet wl.words) hnd
    have hcongr : word_ids.filter (fun i => decide (i ∉ pySet wl.words)) =
        word_ids.filter (fun i => !(decide (i ∈ wl.words))) := by
      refine List.filter_congr fun a _ => ?_
      simp [mem_pySet]
    have hsplit := filter_length_split (fun i => decide (i ∈ wl.words)) word_ids
    rw [hsnd, hcongr]
    omega

/-- Witness for the amended C4 at a concrete state: adding the duplicate-free
request `["A", "B"]` to `fixList` (which already holds both) stores each key
once and reports 2 duplicates — the number of requested keys already present. -/
theorem add_words_dedup_and_count_witness :
    ((addNewWords (pySet fixList.words) ["A", "B"]).1).count ("A") = 1
    ∧ (["A", "B"].Nodup →
        (["A", "B"] : List String).length -
          (addNewWords (pySet fixList.words) ["A", "B"]).2.length =
        (["A", "B"].filter (fun i => decide (i ∈ fixList.words))).length) :=
  ⟨(add_words_dedup_and_count (generate_wordlist_id ("u@x.com") fixFolderA)
      ["A", "B"] 9 fixState fixWords fixList rfl rfl).1 ("A") (by decide),
   (add_words_dedup_and_count (generate_wordlist_id ("u@x.com") fixFolderA)
      ["A", "B"] 9 fixState fixWords fixList rfl rfl).2.2⟩

/-- Counterexample to C6 as stated: the metadata update endpoint changes
`folder_id` without recomputing the stored id. Updating the WordList of
(u@x.com, folder A) to folder B returns a document whose `word_list_id` is
still the derived key of folder A, not of its new stored pair, and the
resulting collection violates the derived-key equation. -/
theorem update_breaks_derived_key_cex :
    (update_wordlist (generate_wordlist_id ("u@x.com") fixFolderA)
        ⟨none, some fixFolderB⟩ 9 fixState fixFolders).1 =
      Except.ok ⟨generate_wordlist_id ("u@x.com") fixFolderA, "u@x.com",
        fixFolderB, ["A", "B"], 0, 9⟩
    ∧ generate_wordlist_id ("u@x.com") fixFolderA ≠
        generate_wordlist_id ("u@x.com") fixFolderB
    ∧ ¬ keyInv (update_wordlist (generate_wordlist_id ("u@x.com") fixFolderA)
        ⟨none, some fixFolderB⟩ 9 fixState fixFolders).2 := by
  refine ⟨rfl, by decide, by decide⟩

/-- C6 amended: the derived-key equation `word_list_id =
generate_wordlist_id user_id folder_id` is established by create and
preserved by add-words, remove-word, delete, and by metadata updates that
supply neither a new `user_id` nor a new `folder_id`; a metadata update that
changes either field keeps the stored `word_list_id` unchanged and therefore
breaks the equation (see the counterexample). -/
theorem derived_key_invariant (op : Op) (ws : List WordDoc)
    (fs : List FolderDoc) (s : List WordListDoc) (hs : keyInv s)
    (hop : ∀ lid req now, op = Op.updateOp lid req now →
      req.user_id = none ∧ req.folder_id = none) :
    keyInv (apply_op op ws fs s) := by
  cases op with
  | createOp req now =>
    simp only [apply_op]
    rcases create_wordlist_state req now s ws fs with h | h
    · rw [h]; exact hs
    · rw [h]; exact keyInv_append s _ hs rfl
  | updateOp lid req now =>
    obtain ⟨h1, h2⟩ := hop lid req now rfl
    simp only [apply_op]
    rcases update_wordlist_state lid req now s fs with h | h
    · rw [h]; exact hs
    · rw [h]
      refine keyInv_update_first _ _ s hs fun d => ?_
      simp [applyUpdate, h1, h2]
  | addWordsOp lid ids now =>
    simp only [apply_op]
    rcases add_words_state lid ids now s ws with h | ⟨ex, hex, h⟩
    · rw [h]; exact hs
    · rw [h]
      exact keyInv_update_first _ _ s hs fun d => ⟨rfl, rfl, rfl⟩
  | removeWordOp lid wid now =>
    simp only [apply_op]
    rcases remove_word_state lid wid now s with h | h
    · rw [h]; exact hs
    · rw [h]
      exact keyInv_update_first _ _ s hs fun d => ⟨rfl, rfl, rfl⟩
  | deleteOp lid =>
    simp only [apply_op]
    rcases delete_wordlist_state lid s with h | h
    · rw [h]; exact hs
    · rw [h]; exact keyInv_delete_first _ s hs

/-- Witness for the amended C6 at a concrete state: the invariant holds on
`fixState` and is preserved by an add-words operation. -/
theorem derived_key_invariant_witness :
    keyInv fixState
    ∧ keyInv (apply_op (Op.addWordsOp (generate_wordlist_id ("u@x.com")
        fixFolderA) ["B"] 9) fixWords fixFolders fixState) :=
  ⟨by decide,
   derived_key_invariant (Op.addWordsOp (generate_wordlist_id ("u@x.com")
       fixFolderA) ["B"] 9) fixWords fixFolders fixState (by decide)
     (fun _ _ _ h => nomatch h)⟩

/-- Counterexample to C7 as stated: `create_wordlist` stores the request's
words array verbatim. A create request whose array repeats `A` succeeds and
stores `A` twice, so the stored membership of a reachable record is not
duplicate-free. -/
theorem create_stores_duplicates_cex :
    (create_wordlist ⟨"u2@x.com", fixFolderA, ["A", "A"]⟩ 9 [] fixWords
        fixFolders).1 =
      Except.ok ⟨generate_wordlist_id ("u2@x.com") fixFolderA, "u2@x.com",
        fixFolderA, ["A", "A"], 9, 9⟩
    ∧ ¬ nodupInv (create_wordlist ⟨"u2@x.com", fixFolderA, ["A", "A"]⟩ 9 []
        fixWords fixFolders).2 := by
  refine ⟨rfl, by decide⟩

/-- C7 amended: add-words always writes a duplicate-free membership (it even
repairs a previously duplicated one), remove-word and metadata update keep
stored memberships duplicate-free, and create stores a duplicate-free array
exactly when the request's own words array is duplicate-free — a create
request repeating a key stores it more than once (see the counterexample). -/
theorem membership_nodup_invariant (op : Op) (ws : List WordDoc)
    (fs : List FolderDoc) (s : List WordListDoc) (hs : nodupInv s)
    (hop : ∀ req now, op = Op.createOp req now → req.words.Nodup) :
    nodupInv (apply_op op ws fs s) := by
  cases op with
  | createOp req now =>
    have hnd := hop req now rfl
    simp only [apply_op]
    rcases create_wordlist_state req now s ws fs with h | h
    · rw [h]; exact hs
    · rw [h]; exact nodupInv_append s _ hs hnd
  | updateOp lid req now =>
    simp only [apply_op]
    rcases update_wordlist_state lid req now s fs with h | h
    · rw [h]; exact hs
    · rw [h]
      exact nodupInv_update_first _ _ s hs fun d hd => hd
  | addWordsOp lid ids now =>
    simp only [apply_op]
    rcases add_words_state lid ids now s ws with h | ⟨ex, hex, h⟩
    · rw [h]; exact hs
    · rw [h]
      exact nodupInv_update_first _ _ s hs fun d _ =>
        nodup_addNewWords_fst ids (pySet ex.words) (nodup_pySet ex.words)
  | removeWordOp lid wid now =>
    simp only [apply_op]
    rcases remove_word_state lid wid now s with h | h
    · rw [h]; exact hs
    · rw [h]
      exact nodupInv_update_first _ _ s hs fun d hd => hd.erase wid
  | deleteOp lid =>
    simp only [apply_op]
    rcases delete_wordlist_state lid s with h | h
    · rw [h]; exact hs
    · rw [h]; exact nodupInv_delete_first _ s hs

/-- Witness for the amended C7 at a concrete state: the invariant holds on
`fixState` and is preserved by a create with a duplicate-free words array. -/
theorem membership_nodup_invariant_witness :
    nodupInv fixState
    ∧ nodupInv (apply_op (Op.createOp ⟨"w@x.com", fixFolderA, ["A"]⟩ 9)
        fixWords fixFolders fixState) :=
  ⟨by decide,
   membership_nodup_invariant (Op.createOp ⟨"w@x.com", fixFolderA, ["A"]⟩ 9)
     fixWords fixFolders fixState (by decide)
     (fun req now h => by injection h with h1 h2; subst h1; decide)⟩

/-- Counterexample to C9 as stated: the WordList router's folder validation
passes for a folder owned by someone other than the caller, so not every
folder-scoped operation verifies ownership. Creating a WordList as
`me@x.com` against a folder owned by `owner@x.com` succeeds. -/
theorem wordlists_folder_check_ignores_owner_cex :
    validate_folder_exists fixFolderA foreignFolders =
      Except.ok ⟨fixFolderA, "owner@x.com", "f"⟩
    ∧ (create_wordlist ⟨"me@x.com", fixFolderA, []⟩ 9 [] fixWords
        foreignFolders).1 =
      Except.ok ⟨generate_wordlist_id ("me@x.com") fixFolderA, "me@x.com",
        fixFolderA, [], 9, 9⟩
    ∧ ("me@x.com" : String) ≠ "owner@x.com" := by
  refine ⟨rfl, rfl, by decide⟩

/-- C9 amended: the folders router and the words router filter by id and
owner in one query — a malformed id is a 400 client error, and a missing
folder and a folder owned by someone else produce the identical 404 error
value (existence is not revealed). The WordList router's folder validation,
however, checks only id format and existence: any stored folder with the
requested id passes it regardless of owner (see the counterexample). -/
theorem folder_ownership_validation (folder_id caller : String)
    (fs : List FolderDoc) :
    (isValidObjectId folder_id = false →
      get_folder folder_id caller fs =
        Except.error ⟨400, "Invalid folder ID format"⟩
      ∧ validate_folder_exists folder_id fs =
        Except.error ⟨400, invalidFolderMsg folder_id⟩)
    ∧ (isValidObjectId folder_id = true →
      fs.find? (fun fo => fo.oid == folder_id && fo.user_id == caller) = none →
      get_folder folder_id caller fs =
        Except.error ⟨404, folderRouterNotFoundMsg⟩)
    ∧ (fs.find? (fun fo => fo.oid == folder_id && fo.user_id == caller) = none →
      validate_folder_ownership folder_id caller fs =
        Except.error ⟨404, folderOwnershipNotFoundMsg⟩)
    ∧ (isValidObjectId folder_id = true →
      ∀ fo, fs.find? (fun f2 => f2.oid == folder_id) = some fo →
        validate_folder_exists folder_id fs = Except.ok fo) := by
  refine ⟨?_, ?_, ?_, ?_⟩
  · intro hbad
    constructor
    · simp only [get_folder, hbad]
      rw [if_neg (by simp [hbad])]
    · simp only [validate_folder_exists, hbad]
      rw [if_neg (by simp [hbad])]
  · intro hgood hnone
    simp only [get_folder, hnone]
    rw [if_pos hgood]
  · intro hnone
    simp only [validate_folder_ownership, hnone]
  · intro hgood fo hfo
    simp only [validate_folder_exists, hfo]
    rw [if_pos hgood]

/-- Witness for the amended C9 at a concrete state: the wrong-owner lookup
and the malformed-id lookup in the owner-checking routers, both failing as
client errors. -/
theorem folder_ownership_validation_witness :
    get_folder fixFolderA ("me@x.com") foreignFolders =
      Except.error ⟨404, folderRouterNotFoundMsg⟩
    ∧ validate_folder_ownership fixFolderA ("me@x.com") foreignFolders =
      Except.error ⟨404, folderOwnershipNotFoundMsg⟩
    ∧ get_folder ("zzz") ("me@x.com") foreignFolders =
      Except.error ⟨400, "Invalid folder ID format"⟩ :=
  ⟨(folder_ownership_validation fixFolderA ("me@x.com") foreignFolders).2.1
      rfl rfl,
   (folder_ownership_validation fixFolderA ("me@x.com") foreignFolders).2.2.1
      rfl,
   ((folder_ownership_validation ("zzz") ("me@x.com") foreignFolders).1 rfl).1⟩
